import Mathlib

/-!
# Verification of the Contract Intelligence API (`src/app/api/endpoints.py`)

A shallow embedding of the retrieval-augmented query pipeline: the metrics
counters, the batched ingestion controller, the retrieval gateway, the three
answer-orchestrator modes, and the deferred webhook dispatcher.  External
collaborators (vector index, language model, PDF extractor) are modelled by
their contracts: the index is a list of chunks with metadata-equality
filtering, the language model is an abstract deterministic function supplied
as a parameter, and the PDF extractor yields the list of per-page texts that
an uploaded file carries.
-/

namespace ContractIntel

/-- The five process-wide counters of `METRICS` in `endpoints.py`. -/
structure Metrics where
  documents_ingested : Nat
  questions_asked : Nat
  risks_audited : Nat
  webhooks_triggered : Nat
  errors : Nat
  deriving Repr, DecidableEq

/-- Initial value of `METRICS`: every counter starts at 0. -/
def Metrics.init : Metrics := ⟨0, 0, 0, 0, 0⟩

/-- A chunk as stored in the vector index: its text (`page_content`) and the
`source` entry of its metadata mapping. -/
structure Chunk where
  page_content : String
  source : String
  deriving Repr, DecidableEq

/-- The vector index, abstracted to the ordered list of chunks it holds.
Ranking by similarity is abstracted to list order; none of the verified
properties depend on which chunks a query ranks first. -/
abbrev Index := List Chunk

/-- Embeds `vectorstore.add_documents(chunks)`: upserts fresh records, appending to
the index (Pinecone assigns fresh ids; nothing is replaced). -/
def add_documents (idx : Index) (chunks : List Chunk) : Index :=
  idx ++ chunks

/-- Embeds `vectorstore.as_retriever(search_kwargs={"k": k, "filter": {"source": document_id}}).invoke(query)`:
metadata-equality filtering on `source`, then the top `k` by rank. -/
def retrieve (idx : Index) (document_id : String) (k : Nat) : List Chunk :=
  (idx.filter (fun c => c.source = document_id)).take k

/-- Embeds `vectorstore.similarity_search(question, k)`: top `k` by rank, no filter. -/
def similarity_search (idx : Index) (k : Nat) : List Chunk :=
  idx.take k

/-- Embeds `"\n\n".join([d.page_content for d in docs])`. -/
def contextText (docs : List Chunk) : String :=
  String.intercalate "\n\n" (docs.map (·.page_content))

/-! ## The chunker

`RecursiveCharacterTextSplitter(chunk_size=1000, chunk_overlap=100)` comes
from an external library (`langchain_text_splitters`), whose source is not
part of this repository. -/

/-- Modelled from the spec: the Document Chunker
(`RecursiveCharacterTextSplitter(chunk_size=1000, chunk_overlap=100)`,
whose implementation is external to the repository) in its hard
character-cut regime: windows of `chunk_size = 1000` characters advanced by
`chunk_size - chunk_overlap = 900`, so consecutive windows share 100
characters.  The spec's preference for natural boundaries (paragraph,
sentence, word) is abstracted to this fallback cut.  `fuel` bounds the
recursion depth; `fuel = text.length` always suffices since each step
consumes 900 characters. -/
def chunkAux : Nat → List Char → List (List Char)
  | 0, t => [t]
  | fuel + 1, t =>
    if t.length ≤ 1000 then [t]
    else t.take 1000 :: chunkAux fuel (t.drop 900)

/-- Modelled from the spec: split a text into the ordered sequence of
overlapping windows (see `chunkAux`). -/
def chunkText (t : List Char) : List (List Char) :=
  chunkAux t.length t

/-- Embeds `splitter.create_documents([text], metadatas=[{"source": source}])`: each
produced chunk carries the source identifier in its metadata. -/
def create_documents (text : List Char) (source : String) : List Chunk :=
  (chunkText text).map (fun cs => { page_content := String.mk cs, source := source })

/-- Reassemble a chunk sequence, collapsing the 100-character overlap that
every chunk after the first shares with its predecessor. -/
def assemble : List (List Char) → List Char
  | [] => []
  | c :: cs => c ++ (cs.map (List.drop 100)).flatten

/-! ## Response schemas (`src/app/schemas/models.py`) -/

/-- Embeds `ExtractResponse`: the fixed-shape extraction record, each field
independently nullable. -/
structure ExtractResponse where
  parties : List String
  effective_date : Option String
  term : Option String
  governing_law : Option String
  payment_terms : Option String
  termination_clause : Option String
  liability_cap : Option String
  deriving Repr, DecidableEq

/-- Embeds `AuditFinding`: one flagged risk. -/
structure AuditFinding where
  risk_category : String
  severity : String
  evidence : String
  explanation : String
  deriving Repr, DecidableEq

/-- Embeds `AuditResponse`: an ordered sequence of zero or more findings. -/
structure AuditResponse where
  risks : List AuditFinding
  deriving Repr, DecidableEq

/-- Embeds `WebhookRequest`. -/
structure WebhookRequest where
  callback_url : String
  task_type : String
  deriving Repr, DecidableEq

/-! ## The language model collaborator

`ChatGroq` with `temperature=0`: a deterministic external collaborator.  Its
streaming behaviour is an abstract function from a message list to the
ordered fragments it generates; the non-streamed `invoke` of the same
deterministic model returns the concatenation of those fragments.  The two
structured modes may fail (malformed / schema-violating output), modelled by
`Except`. -/

/-- Embeds `SystemMessage` / `HumanMessage` from `langchain_core.messages`. -/
inductive Message where
  | system (content : String)
  | human (content : String)
  deriving Repr, DecidableEq

/-- Left-to-right concatenation of generated fragments. -/
def concatS : List String → String
  | [] => ""
  | s :: l => s ++ concatS l

structure Model where
  /-- Embeds `llm.astream(messages)`: the ordered fragments the model generates. -/
  stream : List Message → List String
  /-- Embeds `llm.with_structured_output(ExtractResponse).ainvoke(prompt)`. -/
  structuredExtract : String → Except String ExtractResponse
  /-- Embeds `llm.with_structured_output(AuditResponse).ainvoke(prompt)`. -/
  structuredAudit : String → Except String AuditResponse

/-- Embeds `llm.invoke(messages)`: for the deterministic model, the full text is the
concatenation of the fragments the streaming mode would generate. -/
def Model.invoke (m : Model) (messages : List Message) : String :=
  concatS (m.stream messages)

/-! ## System state and failure model -/

/-- Process-wide mutable state touched by the handlers: the temporary files
currently on disk, the vector index, and the metrics counters. -/
structure SysState where
  tempFiles : List String
  index : Index
  metrics : Metrics
  deriving Repr, DecidableEq

/-- Embeds `raise HTTPException(status_code=..., detail=...)`. -/
structure ApiError where
  status : Nat
  detail : String
  deriving Repr, DecidableEq

/-! ## Ingestion (`ingest_pdfs`) -/

/-- The stage of `ingest_pdfs`'s per-file `try` block at which an exception
can be raised: the temporary-file write (`shutil.copyfileobj`), `fitz.open`,
per-page text extraction, or `vectorstore.add_documents`. -/
inductive Stage where
  | write
  | openPdf
  | extract
  | indexWrite
  deriving Repr, DecidableEq

/-- One element of `files`: its `filename`, the per-page texts the PDF
extractor yields for it, and — to make every exception path of the source
explicit — the stage of the `try` block at which processing this file
raises, if any. -/
structure UploadFile where
  filename : String
  pages : List String
  failAt : Option Stage
  deriving Repr, DecidableEq

/-- Embeds `os.remove(temp_filename)` guarded by `os.path.exists`. -/
def removeIfExists (fs : List String) (name : String) : List String :=
  fs.filter (fun f => f ≠ name)

/-- One iteration of the `for file in files` loop of `ingest_pdfs`.  In
source order: create `temp_<filename>` on disk; open the PDF; join the
per-page texts (`"".join([page.get_text() for page in doc])`); chunk the
joined text with source metadata; `add_documents`; increment
`documents_ingested`.  An exception at any stage jumps to the `except`
block, which increments `errors` and raises HTTP 500; the `finally` block
removes the temporary file on every path.  Returns the state after the
iteration and `some error` when the iteration raised. -/
def processFile (st : SysState) (f : UploadFile) : SysState × Option ApiError :=
  let temp := "temp_" ++ f.filename
  let fs1 := temp :: st.tempFiles
  match f.failAt with
  | some _ =>
    ({ tempFiles := removeIfExists fs1 temp
       index := st.index
       metrics := { st.metrics with errors := st.metrics.errors + 1 } },
     some ⟨500, "Error processing " ++ f.filename⟩)
  | none =>
    let text := String.join f.pages
    let chunks := create_documents text.toList f.filename
    ({ tempFiles := removeIfExists fs1 temp
       index := add_documents st.index chunks
       metrics := { st.metrics with
                      documents_ingested := st.metrics.documents_ingested + 1 } },
     none)

/-- The loop of `ingest_pdfs`, threading the growing `processed_files` list;
the first raised exception aborts the whole call with its HTTP 500 error. -/
def ingestLoop (st : SysState) (acc : List String) :
    List UploadFile → SysState × Except ApiError (List String)
  | [] => (st, .ok acc.reverse)
  | f :: rest =>
    match processFile st f with
    | (st', none) => ingestLoop st' (f.filename :: acc) rest
    | (st', some e) => (st', .error e)

/-- Embeds `POST /ingest`: process the uploaded files in order; on success return
`{"status": "success", "processed_files": [...]}`, modelled as the list of
processed filenames. -/
def ingest_pdfs (st : SysState) (files : List UploadFile) :
    SysState × Except ApiError (List String) :=
  ingestLoop st [] files

/-! ## Structured extraction (`extract_metadata`) -/

/-- The inline extraction prompt of `extract_metadata`. -/
def extractPrompt (context_text : String) : String :=
  "Analyze the contract text below and extract the fields.\nContract Text:\n"
    ++ context_text

/-- Embeds `AUDIT_PROMPT.format(context=context_text)` (template in
`src/app/core/prompts.py`). -/
def auditPrompt (context_text : String) : String :=
  "\nYou are a senior legal risk auditor. Review the clauses below for HIGH RISK factors.\n\n"
    ++ "Risks to Flag:\n"
    ++ "1. **Auto-renewal**: Any auto-renewal with less than 30 days notice.\n"
    ++ "2. **Liability**: Unlimited liability or caps exceeding 5x contract value.\n"
    ++ "3. **Indemnity**: Broad or one-sided indemnification clauses.\n"
    ++ "4. **Termination**: Termination for convenience without notice.\n\n"
    ++ "Contract Text:\n" ++ context_text ++ "\n\n"
    ++ "Return a JSON list of objects. Each object must have:\n"
    ++ "- \"risk_category\": string\n- \"severity\": \"HIGH\" or \"MEDIUM\"\n"
    ++ "- \"evidence\": string (exact quote from text)\n"
    ++ "- \"explanation\": string (why it is risky)\n"

/-- Embeds `POST /extract`.  In source order, inside one `try` block: retrieve the
top 10 chunks filtered on `source = document_id`; if none match, raise
`HTTPException(404, "Document not found")`; otherwise assemble the context
and invoke the structured model, whose malformed output is a raised
exception.  The `except Exception` clause catches *every* exception raised
in the block — including the 404 `HTTPException` itself — increments
`errors`, and raises `HTTPException(500, "Extraction failed")`.  No metrics
counter other than `errors` is touched by this handler. -/
def extract_metadata (st : SysState) (m : Model) (document_id : String) :
    SysState × Except ApiError ExtractResponse :=
  let docs := retrieve st.index document_id 10
  let body : Except ApiError ExtractResponse :=
    if docs.isEmpty then
      Except.error ⟨404, "Document not found"⟩
    else
      match m.structuredExtract (extractPrompt (contextText docs)) with
      | .ok r => .ok r
      | .error e => .error ⟨500, e⟩
  match body with
  | .ok r => (st, .ok r)
  | .error _ =>
    ({ st with metrics := { st.metrics with errors := st.metrics.errors + 1 } },
     .error ⟨500, "Extraction failed"⟩)

/-! ## Question answering (`ask_question`, `stream_question`) -/

/-- The two-part message list built identically by `ask_question` and
`stream_question`. -/
def qaMessages (context_text question : String) : List Message :=
  [Message.system ("Answer based on this context:\n" ++ context_text),
   Message.human question]

/-- Embeds `POST /ask`.  `questions_asked` is incremented before the `try` block.
`searchFail` models `vectorstore.similarity_search` raising (upstream index
failure), which jumps to the `except` block: `errors` is incremented and
HTTP 500 is raised.  On success: answer text plus the deduplicated citation
set (`list({doc.metadata.get("source", "unknown") for doc in docs})`). -/
def ask_question (st : SysState) (m : Model) (searchFail : Bool)
    (question : String) : SysState × Except ApiError (String × List String) :=
  let st1 := { st with metrics :=
    { st.metrics with questions_asked := st.metrics.questions_asked + 1 } }
  if searchFail then
    ({ st1 with metrics := { st1.metrics with errors := st1.metrics.errors + 1 } },
     .error ⟨500, "Q&A processing failed"⟩)
  else
    let docs := similarity_search st.index 4
    let context_text := contextText docs
    let response := m.invoke (qaMessages context_text question)
    let sources := (docs.map (·.source)).dedup
    (st1, .ok (response, sources))

/-- Embeds `GET /ask/stream`.  `questions_asked` is incremented before the `try`
block.  `searchFail` models `vectorstore.similarity_search` raising, which
jumps to the `except` block: HTTP 500 is raised and — unlike every other
handler — `errors` is NOT incremented there.  On success the event
generator yields one `data: <content>` event per generated fragment with
non-empty content (`if chunk.content:`), in generation order, then the
`data: [DONE]` sentinel; events are modelled by their data payloads. -/
def stream_question (st : SysState) (m : Model) (searchFail : Bool)
    (question : String) : SysState × Except ApiError (List String) :=
  let st1 := { st with metrics :=
    { st.metrics with questions_asked := st.metrics.questions_asked + 1 } }
  if searchFail then
    (st1, .error ⟨500, "Streaming failed"⟩)
  else
    let docs := similarity_search st.index 4
    let context_text := contextText docs
    let fragments :=
      (m.stream (qaMessages context_text question)).filter (fun c => c ≠ "")
    (st1, .ok (fragments ++ ["[DONE]"]))

/-! ## Audit (`audit_contract`) -/

/-- Embeds `POST /audit`.  `risks_audited` is incremented before the `try` block.
The retrieval filters on `source = document_id` with k = 15 but — unlike
`extract_metadata` — performs no empty-result check: an empty match
proceeds with an empty context.  A structured-model failure jumps to the
`except` block: `errors` is incremented and HTTP 500 is raised. -/
def audit_contract (st : SysState) (m : Model) (document_id : String) :
    SysState × Except ApiError AuditResponse :=
  let st1 := { st with metrics :=
    { st.metrics with risks_audited := st.metrics.risks_audited + 1 } }
  let docs := retrieve st.index document_id 15
  let context_text := contextText docs
  match m.structuredAudit (auditPrompt context_text) with
  | .ok r => (st1, .ok r)
  | .error _ =>
    ({ st1 with metrics := { st1.metrics with errors := st1.metrics.errors + 1 } },
     .error ⟨500, "Audit processing failed"⟩)

/-! ## Deferred webhook dispatch (`trigger_webhook_event`,
`send_webhook_notification`) -/

/-- Observable steps of the background task `send_webhook_notification`. -/
inductive WebhookEvent where
  | sleep (seconds : Nat)
  | post (url : String) (timeoutSeconds : Nat)
  | logSuccess (statusCode : Nat)
  | logFailure (message : String)
  deriving Repr, DecidableEq

/-- Outcome of the single outbound `client.post`: a response status code, or
a raised exception (unreachable host, timeout, ...). -/
inductive PostOutcome where
  | response (statusCode : Nat)
  | raised (message : String)
  deriving Repr, DecidableEq

/-- The background task: `await asyncio.sleep(5)`, then one
`client.post(url, json=result_data, timeout=10.0)`; its success is logged
and its failure is logged — nothing else is done with the outcome (no
retry, no propagation). -/
def send_webhook_notification (url : String) (outcome : PostOutcome) :
    List WebhookEvent :=
  [WebhookEvent.sleep 5, WebhookEvent.post url 10]
    ++ match outcome with
       | .response code => [WebhookEvent.logSuccess code]
       | .raised msg => [WebhookEvent.logFailure msg]

/-- The acknowledgement body returned by `POST /webhook/events`. -/
structure WebhookAck where
  status : String
  message : String
  deriving Repr, DecidableEq

/-- Embeds `POST /webhook/events`: increment `webhooks_triggered`, schedule the
background task (returned as a pending-task descriptor — `BackgroundTasks`
runs it only after the response is sent), and return the acknowledgement
immediately. -/
def trigger_webhook_event (st : SysState) (req : WebhookRequest) :
    SysState × WebhookAck × String :=
  let st1 := { st with metrics :=
    { st.metrics with webhooks_triggered := st.metrics.webhooks_triggered + 1 } }
  (st1,
   ⟨"processing_started", "We will notify your URL when done."⟩,
   req.callback_url)

/-- Embeds `GET /metrics`: a read-only snapshot of the counters. -/
def get_metrics (st : SysState) : SysState × Metrics :=
  (st, st.metrics)

/-! ## Chunker lemmas -/

/-- Consecutive chunks overlap by exactly 100 characters: the first chunk's
trailing 100 characters equal the second chunk's leading 100 characters. -/
def overlaps (a b : List Char) : Prop :=
  a.drop 900 = b.take 100 ∧ (a.drop 900).length = 100

theorem chunkAux_head (fuel : Nat) (t : List Char) (h : t.length ≤ fuel ∨ t.length ≤ 1000) :
    ∃ tl, chunkAux fuel t = t.take 1000 :: tl := by
  cases fuel with
  | zero =>
    have ht : t.length ≤ 1000 := by omega
    exact ⟨[], by simp [chunkAux, List.take_of_length_le ht]⟩
  | succ fuel =>
    by_cases h1000 : t.length ≤ 1000
    · exact ⟨[], by simp [chunkAux, h1000, List.take_of_length_le h1000]⟩
    · exact ⟨chunkAux fuel (t.drop 900), by simp [chunkAux, h1000]⟩

theorem chunkAux_length_le (fuel : Nat) (t : List Char) (h : t.length ≤ fuel) :
    ∀ c ∈ chunkAux fuel t, c.length ≤ 1000 := by
  induction fuel generalizing t with
  | zero =>
    intro c hc
    simp only [chunkAux, List.mem_singleton] at hc
    subst hc; omega
  | succ fuel ih =>
    intro c hc
    by_cases h1000 : t.length ≤ 1000
    · simp only [chunkAux, h1000, if_pos, List.mem_singleton] at hc
      subst hc; exact h1000
    · simp only [chunkAux, h1000, if_neg, not_false_iff, List.mem_cons] at hc
      rcases hc with hc | hc
      · subst hc; simp [List.length_take]
      · exact ih (t.drop 900) (by simp [List.length_drop]; omega) c hc

theorem chunkAux_chain (fuel : Nat) (t : List Char) (h : t.length ≤ fuel) :
    List.Chain' overlaps (chunkAux fuel t) := by
  induction fuel generalizing t with
  | zero => simp [chunkAux]
  | succ fuel ih =>
    by_cases h1000 : t.length ≤ 1000
    · simp [chunkAux, h1000]
    · have hdrop : (t.drop 900).length ≤ fuel := by
        simp [List.length_drop]; omega
      obtain ⟨tl, htl⟩ := chunkAux_head fuel (t.drop 900) (Or.inl hdrop)
      simp only [chunkAux, h1000, if_neg, not_false_iff]
      rw [List.chain'_cons']
      constructor
      · intro b hb
        rw [htl] at hb
        simp only [List.head?_cons, Option.mem_def, Option.some.injEq] at hb
        subst hb
        constructor
        · rw [List.drop_take, List.take_take]
          norm_num
        · rw [List.length_drop, List.length_take]
          omega
      · exact ih (t.drop 900) hdrop

theorem chunkAux_assemble (fuel : Nat) (t : List Char) (h : t.length ≤ fuel) :
    assemble (chunkAux fuel t) = t := by
  induction fuel generalizing t with
  | zero => simp [chunkAux, assemble]
  | succ fuel ih =>
    by_cases h1000 : t.length ≤ 1000
    · simp [chunkAux, h1000, assemble]
    · have hdrop : (t.drop 900).length ≤ fuel := by
        simp [List.length_drop]; omega
      obtain ⟨tl, htl⟩ := chunkAux_head fuel (t.drop 900) (Or.inl hdrop)
      have hIH : assemble (chunkAux fuel (t.drop 900)) = t.drop 900 :=
        ih (t.drop 900) hdrop
      rw [htl] at hIH
      simp only [assemble] at hIH
      have hlen : 100 ≤ ((t.drop 900).take 1000).length := by
        rw [List.length_take, List.length_drop]; omega
      have hdrop100 : ((t.drop 900).take 1000).drop 100
          ++ (tl.map (List.drop 100)).flatten = t.drop 1000 := by
        have := congrArg (List.drop 100) hIH
        rw [List.drop_append_of_le_length hlen] at this
        rw [this, List.drop_drop]
      simp only [chunkAux, h1000, if_neg, not_false_iff, htl, assemble,
        List.map_cons, List.flatten_cons]
      rw [← List.append_assoc, List.append_assoc ((List.take 1000 t)), hdrop100,
        List.take_append_drop]

theorem chunkAux_ne_nil (fuel : Nat) (t : List Char) : chunkAux fuel t ≠ [] := by
  cases fuel with
  | zero => simp [chunkAux]
  | succ fuel =>
    unfold chunkAux
    split <;> simp

theorem create_documents_ne_nil (text : List Char) (source : String) :
    create_documents text source ≠ [] := by
  intro h
  exact chunkAux_ne_nil _ _ (List.map_eq_nil_iff.mp h)

/-! ## Ingestion lemmas -/

theorem processFile_tempFiles (st : SysState) (f : UploadFile)
    (h : st.tempFiles = []) : (processFile st f).1.tempFiles = [] := by
  unfold processFile
  cases f.failAt <;> simp [removeIfExists, h]

theorem processFile_not_mem_tempFiles (st : SysState) (f : UploadFile) :
    ("temp_" ++ f.filename) ∉ (processFile st f).1.tempFiles := by
  unfold processFile
  cases f.failAt <;> simp [removeIfExists]

theorem ingestLoop_tempFiles (files : List UploadFile) :
    ∀ (st : SysState) (acc : List String), st.tempFiles = [] →
      (ingestLoop st acc files).1.tempFiles = [] := by
  induction files with
  | nil =>
    intro st acc h
    simpa [ingestLoop] using h
  | cons f rest ih =>
    intro st acc h
    have hp := processFile_tempFiles st f h
    simp only [ingestLoop]
    rcases hpf : processFile st f with ⟨st', e⟩
    rw [hpf] at hp
    cases e with
    | none => exact ih st' _ hp
    | some err => exact hp

theorem ingestLoop_index_grows (files : List UploadFile) :
    ∀ (st : SysState) (acc : List String),
      ∃ tl, (ingestLoop st acc files).1.index = st.index ++ tl := by
  induction files with
  | nil =>
    intro st acc
    exact ⟨[], by simp [ingestLoop]⟩
  | cons f rest ih =>
    intro st acc
    simp only [ingestLoop]
    rcases hpf : processFile st f with ⟨st', e⟩
    have hidx : ∃ tl0, st'.index = st.index ++ tl0 := by
      unfold processFile at hpf
      cases hfa : f.failAt <;> rw [hfa] at hpf <;>
        injection hpf with h1 h2 <;> rw [← h1]
      · exact ⟨_, rfl⟩
      · exact ⟨[], by simp⟩
    obtain ⟨tl0, h0⟩ := hidx
    cases e with
    | none =>
      obtain ⟨tl1, h1⟩ := ih st' (f.filename :: acc)
      exact ⟨tl0 ++ tl1, by rw [h1, h0, List.append_assoc]⟩
    | some err => exact ⟨tl0, h0⟩

theorem ingestLoop_abort (f : UploadFile) (rest : List UploadFile)
    (hf : f.failAt.isSome) (pre : List UploadFile) :
    ∀ (st : SysState) (acc : List String), (∀ g ∈ pre, g.failAt = none) →
      (ingestLoop st acc (pre ++ f :: rest)).2
          = Except.error ⟨500, "Error processing " ++ f.filename⟩ ∧
      (ingestLoop st acc (pre ++ f :: rest)).1.index
          = st.index
            ++ (pre.map fun g =>
                  create_documents (String.join g.pages).toList g.filename).flatten ∧
      (ingestLoop st acc (pre ++ f :: rest)).1.metrics.documents_ingested
          = st.metrics.documents_ingested + pre.length := by
  induction pre with
  | nil =>
    intro st acc _
    obtain ⟨s, hs⟩ := Option.isSome_iff_exists.mp hf
    simp [ingestLoop, processFile, hs]
  | cons g pre ih =>
    intro st acc hpre
    have hg : g.failAt = none := hpre g (List.mem_cons_self g pre)
    simp only [List.cons_append, ingestLoop]
    rcases hpf : processFile st g with ⟨st', e⟩
    have hpf' := hpf
    unfold processFile at hpf'
    rw [hg] at hpf'
    injection hpf' with h1 h2
    cases h2
    dsimp only
    simp only [List.append_eq]
    have hrec := ih st' (g.filename :: acc)
        (fun x hx => hpre x (List.mem_cons_of_mem g hx))
    have hidx : st'.index
        = st.index ++ create_documents (String.join g.pages).toList g.filename := by
      rw [← h1]; rfl
    have hmet : st'.metrics.documents_ingested = st.metrics.documents_ingested + 1 := by
      rw [← h1]
    refine ⟨hrec.1, ?_, ?_⟩
    · rw [hrec.2.1, hidx, List.append_assoc]
      simp
    · rw [hrec.2.2, hmet, List.length_cons]
      omega

/-! ## Fragment-concatenation lemma -/

theorem string_empty_append (u : String) : "" ++ u = u := by
  cases u; rfl

theorem concatS_filter_ne_empty (l : List String) :
    concatS (l.filter (fun c => c ≠ "")) = concatS l := by
  induction l with
  | nil => rfl
  | cons s l ih =>
    rw [List.filter_cons]
    by_cases hs : s = ""
    · rw [if_neg (by simp [hs]), ih, hs]
      exact (string_empty_append (concatS l)).symm
    · rw [if_pos (by simp [hs])]
      show s ++ concatS (l.filter _) = s ++ concatS l
      rw [ih]

/-! ## Concrete fixtures used by the closed theorems -/

/-- An initial process state: no temporary files, empty index, zeroed
counters. -/
def emptyState : SysState := ⟨[], [], Metrics.init⟩

/-- A schema-conforming extraction record. -/
def sampleExtract : ExtractResponse := ⟨[], none, none, none, none, none, none⟩

/-- A deterministic language-model double that always answers
successfully. -/
def sampleModel : Model :=
  { stream := fun _ => ["Answer"]
    structuredExtract := fun _ => .ok sampleExtract
    structuredAudit := fun _ => .ok ⟨[]⟩ }

/-- A state whose index holds one chunk of document `a.pdf`. -/
def oneChunkState : SysState :=
  ⟨[], [⟨"Sample clause text.", "a.pdf"⟩], Metrics.init⟩

/-- Recogniser for the outbound POST step of the dispatcher's trace. -/
def WebhookEvent.isPost : WebhookEvent → Bool
  | .post _ _ => true
  | _ => false

/-- A document of one single-character page, repeated eleven times. -/
def elevenPageFile : UploadFile := ⟨"big.pdf", List.replicate 11 "x", none⟩

/-- A one-page document that ingests successfully. -/
def fileA : UploadFile := ⟨"a.pdf", ["Alpha"], none⟩

/-- A document whose index write raises. -/
def fileB_fail : UploadFile := ⟨"b.pdf", ["Beta"], some Stage.indexWrite⟩

/-- A one-page document queued after the failing one. -/
def fileC : UploadFile := ⟨"c.pdf", ["Gamma"], none⟩

/-! # Claim theorems -/

/-- C1: the claim says a zero-match document filter yields a not-found
failure distinguished from internal failures.  The code contradicts its own
intent: `extract_metadata` deliberately raises
`HTTPException(404, "Document not found")`, but that raise sits inside the
same `try` whose `except Exception` clause catches every exception, so the
caller receives the generic `500 "Extraction failed"` (and the error counter
is bumped as for an internal failure); `audit_contract` performs no
zero-match check at all and invokes the model on an empty context,
returning 200. -/
theorem extract_notfound_masked :
    (extract_metadata emptyState sampleModel "missing.pdf").2
        = Except.error ⟨500, "Extraction failed"⟩ ∧
    (extract_metadata emptyState sampleModel "missing.pdf").1.metrics.errors
        = Metrics.init.errors + 1 ∧
    retrieve emptyState.index "missing.pdf" 10 = [] ∧
    (audit_contract emptyState sampleModel "missing.pdf").2 = Except.ok ⟨[]⟩ :=
  ⟨rfl, rfl, rfl, rfl⟩

/-- C2 (counterexample): the claim says per-page text is accumulated into
batches of at most 10 pages, each batch chunked and indexed immediately.
For an eleven-page document there is NO decomposition of the pages into
batches of at most 10 whose per-batch chunkings concatenate to what the
code writes: the code performs a single index write whose chunks come from
the join of all eleven pages. -/
theorem ingest_not_batched_counterexample :
    ¬ ∃ batches : List (List String),
        (∀ b ∈ batches, b.length ≤ 10) ∧
        batches.flatten = elevenPageFile.pages ∧
        (processFile emptyState elevenPageFile).1.index
          = (batches.map fun b =>
              create_documents (String.join b).toList elevenPageFile.filename).flatten := by
  rintro ⟨batches, hle, hflat, hidx⟩
  have hcode : (processFile emptyState elevenPageFile).1.index
      = [⟨"xxxxxxxxxxx", "big.pdf"⟩] := rfl
  rw [hcode] at hidx
  rcases batches with _ | ⟨b1, bs⟩
  · simp [elevenPageFile] at hflat
  rcases bs with _ | ⟨b2, bs⟩
  · have hb : b1 = List.replicate 11 "x" := by
      simpa [elevenPageFile] using hflat
    have hlen := hle b1 (by simp)
    rw [hb] at hlen
    simp at hlen
  · have hlen := congrArg List.length hidx
    simp only [List.map_cons, List.flatten_cons, List.length_append,
      List.length_cons, List.length_nil] at hlen
    have h1 : 0 < (create_documents (String.join b1).toList elevenPageFile.filename).length :=
      List.length_pos.mpr (create_documents_ne_nil _ _)
    have h2 : 0 < (create_documents (String.join b2).toList elevenPageFile.filename).length :=
      List.length_pos.mpr (create_documents_ne_nil _ _)
    omega

/-- C2 (amended): for each successfully processed document the code joins
the text of ALL pages into one in-memory string, chunks that string once,
and writes the result to the index in a single write; the reassembly
equality witnesses that the single write's chunks cover the whole document
text, so peak memory is O(document size), not O(batch size). -/
theorem ingest_single_write_whole_text (st : SysState) (name : String)
    (pages : List String) :
    (processFile st ⟨name, pages, none⟩).1.index
        = st.index ++ create_documents (String.join pages).toList name ∧
    (processFile st ⟨name, pages, none⟩).2 = none ∧
    assemble (chunkText (String.join pages).toList) = (String.join pages).toList :=
  ⟨rfl, rfl, chunkAux_assemble _ _ le_rfl⟩

/-- C3: the claim says every surfaced failure increments the error counter
exactly once.  `stream_question`'s `except` clause raises HTTP 500 without
touching `METRICS["errors"]` (increment count zero), while the analogous
clause of `ask_question` does increment it once — so a failing streamed ask
refutes the claim. -/
theorem stream_failure_no_error_increment (st : SysState) (m : Model)
    (q : String) :
    (stream_question st m true q).2 = Except.error ⟨500, "Streaming failed"⟩ ∧
    (stream_question st m true q).1.metrics.errors = st.metrics.errors ∧
    (ask_question st m true q).2 = Except.error ⟨500, "Q&A processing failed"⟩ ∧
    (ask_question st m true q).1.metrics.errors = st.metrics.errors + 1 :=
  ⟨rfl, rfl, rfl, rfl⟩

/-- C4: the temporary file `temp_<filename>` does not survive the handling
of its document on any exit path — `files` ranges over every combination of
success and stage failure, and the per-document conjunct holds for an
arbitrary single document whatever its `failAt`. -/
theorem ingest_temp_files_removed (st : SysState) (files : List UploadFile)
    (f : UploadFile) (h : st.tempFiles = []) :
    (ingest_pdfs st files).1.tempFiles = [] ∧
    ("temp_" ++ f.filename) ∉ (processFile st f).1.tempFiles :=
  ⟨ingestLoop_tempFiles files st [] h, processFile_not_mem_tempFiles st f⟩

/-- Witness for C4 at a concrete call: one successful document followed by
one whose `fitz.open` raises. -/
theorem ingest_temp_files_removed_witness :
    emptyState.tempFiles = [] ∧
    ((ingest_pdfs emptyState [fileA, ⟨"b.pdf", ["Beta"], some Stage.openPdf⟩]).1.tempFiles = [] ∧
     ("temp_" ++ (⟨"b.pdf", ["Beta"], some Stage.openPdf⟩ : UploadFile).filename)
        ∉ (processFile emptyState ⟨"b.pdf", ["Beta"], some Stage.openPdf⟩).1.tempFiles) :=
  ⟨rfl, ingest_temp_files_removed emptyState
    [fileA, ⟨"b.pdf", ["Beta"], some Stage.openPdf⟩]
    ⟨"b.pdf", ["Beta"], some Stage.openPdf⟩ rfl⟩

/-- C5: if every document before `f` succeeds and `f` fails, the call
returns the HTTP 500 failure for `f`, the index holds exactly the chunks of
the successfully processed prefix appended to the prior index (nothing from
`f` or the untouched remainder, and nothing rolled back), and the
ingested-document counter grew by exactly the prefix length (never
decremented). -/
theorem ingest_abort_no_rollback (st : SysState) (pre : List UploadFile)
    (f : UploadFile) (rest : List UploadFile)
    (hpre : ∀ g ∈ pre, g.failAt = none) (hf : f.failAt.isSome) :
    (ingest_pdfs st (pre ++ f :: rest)).2
        = Except.error ⟨500, "Error processing " ++ f.filename⟩ ∧
    (ingest_pdfs st (pre ++ f :: rest)).1.index
        = st.index ++ (pre.map fun g =>
            create_documents (String.join g.pages).toList g.filename).flatten ∧
    (ingest_pdfs st (pre ++ f :: rest)).1.metrics.documents_ingested
        = st.metrics.documents_ingested + pre.length :=
  ingestLoop_abort f rest hf pre st [] hpre

/-- Witness for C5 at a concrete call: document 1 succeeds, document 2's
index write raises, document 3 is never reached. -/
theorem ingest_abort_no_rollback_witness :
    (∀ g ∈ [fileA], g.failAt = none) ∧
    fileB_fail.failAt.isSome = true ∧
    ((ingest_pdfs emptyState ([fileA] ++ fileB_fail :: [fileC])).2
        = Except.error ⟨500, "Error processing " ++ fileB_fail.filename⟩ ∧
     (ingest_pdfs emptyState ([fileA] ++ fileB_fail :: [fileC])).1.index
        = emptyState.index ++ ([fileA].map fun g =>
            create_documents (String.join g.pages).toList g.filename).flatten ∧
     (ingest_pdfs emptyState ([fileA] ++ fileB_fail :: [fileC])).1.metrics.documents_ingested
        = emptyState.metrics.documents_ingested + [fileA].length) :=
  ⟨by decide, by decide,
   ingest_abort_no_rollback emptyState [fileA] fileB_fail [fileC] (by decide) (by decide)⟩

/-- C6 (spec-modelled chunker): every chunk is at most 1000 characters;
consecutive chunks overlap by exactly 100 characters (the trailing 100 of
one are the leading 100 of the next); reassembling the chunks while
collapsing each overlap reproduces the input exactly, nothing dropped and
nothing duplicated beyond the overlaps; and every produced chunk's metadata
carries the source identifier.  Determinism is inherent: the chunker is a
function of the input text alone. -/
theorem chunker_contract (text : List Char) (source : String) :
    (∀ c ∈ chunkText text, c.length ≤ 1000) ∧
    List.Chain' overlaps (chunkText text) ∧
    assemble (chunkText text) = text ∧
    (∀ ch ∈ create_documents text source, ch.source = source) := by
  refine ⟨chunkAux_length_le text.length text le_rfl,
    chunkAux_chain text.length text le_rfl,
    chunkAux_assemble text.length text le_rfl, ?_⟩
  intro ch hch
  simp only [create_documents, List.mem_map] at hch
  obtain ⟨cs, -, rfl⟩ := hch
  rfl

/-- C7 (counterexample): a successful structured-extraction attempt — the
retrieval matches, the model is invoked and returns a schema-conforming
record — leaves every metrics counter unchanged: `extract_metadata`
increments no corresponding counter on the attempt. -/
theorem extract_counter_counterexample :
    (extract_metadata oneChunkState sampleModel "a.pdf").2 = Except.ok sampleExtract ∧
    (extract_metadata oneChunkState sampleModel "a.pdf").1.metrics = Metrics.init :=
  ⟨rfl, rfl⟩

/-- C7 (amended): synchronous QA, streamed QA and audit each increment
their counter before the model is invoked — the increment survives any
failure of the invocation (`sf` and the model's structured outcome are
arbitrary), so the counters count attempts; the structured-extraction
handler increments no mode counter at all. -/
theorem mode_counters_attempts (st : SysState) (m : Model) (q did : String)
    (sf : Bool) :
    (ask_question st m sf q).1.metrics.questions_asked
        = st.metrics.questions_asked + 1 ∧
    (stream_question st m sf q).1.metrics.questions_asked
        = st.metrics.questions_asked + 1 ∧
    (audit_contract st m did).1.metrics.risks_audited
        = st.metrics.risks_audited + 1 ∧
    (extract_metadata st m did).1.metrics.questions_asked
        = st.metrics.questions_asked ∧
    (extract_metadata st m did).1.metrics.risks_audited
        = st.metrics.risks_audited ∧
    (extract_metadata st m did).1.metrics.documents_ingested
        = st.metrics.documents_ingested ∧
    (extract_metadata st m did).1.metrics.webhooks_triggered
        = st.metrics.webhooks_triggered := by
  refine ⟨?_, ?_, ?_, ?_, ?_, ?_, ?_⟩
  · cases sf <;> rfl
  · cases sf <;> rfl
  · rcases h : m.structuredAudit (auditPrompt (contextText (retrieve st.index did 15)))
      <;> simp [audit_contract, h]
  all_goals simp only [extract_metadata]; split <;> rfl

/-- C8: for the same question against the same index and the same
deterministic model, the streamed answer is the generated fragments (in
generation order — they form a sublist of the model's stream) terminated by
the `[DONE]` sentinel, and the concatenation of the fragments before the
sentinel is exactly the answer text of the non-streamed handler. -/
theorem stream_matches_ask (st : SysState) (m : Model) (q : String) :
    ∃ fragments,
      (stream_question st m false q).2 = Except.ok (fragments ++ ["[DONE]"]) ∧
      List.Sublist fragments
        (m.stream (qaMessages (contextText (similarity_search st.index 4)) q)) ∧
      ∃ citations,
        (ask_question st m false q).2 = Except.ok (concatS fragments, citations) := by
  refine ⟨(m.stream (qaMessages (contextText (similarity_search st.index 4)) q)).filter
      (fun c => c ≠ ""), rfl, List.filter_sublist _,
      ((similarity_search st.index 4).map (·.source)).dedup, ?_⟩
  show Except.ok (Model.invoke m _, _) = _
  rw [Model.invoke, concatS_filter_ne_empty]

/-- C9: the trigger handler returns the fixed `processing_started`
acknowledgement and only schedules the task (delivery happens after the
response); the task's trace starts with the 5-second delay followed by the
single POST with the 10-second timeout; exactly one POST is attempted for
every outcome; and a raised delivery failure produces only a log entry —
no retry, no effect on the acknowledgement, which does not depend on the
outcome at all. -/
theorem webhook_deferred_delivery (st : SysState) (req : WebhookRequest)
    (outcome : PostOutcome) :
    (trigger_webhook_event st req).2.1
        = ⟨"processing_started", "We will notify your URL when done."⟩ ∧
    (trigger_webhook_event st req).1.metrics.webhooks_triggered
        = st.metrics.webhooks_triggered + 1 ∧
    (send_webhook_notification req.callback_url outcome).take 2
        = [WebhookEvent.sleep 5, WebhookEvent.post req.callback_url 10] ∧
    ((send_webhook_notification req.callback_url outcome).filter
        WebhookEvent.isPost).length = 1 ∧
    (∀ msg, send_webhook_notification req.callback_url (PostOutcome.raised msg)
        = [WebhookEvent.sleep 5, WebhookEvent.post req.callback_url 10,
           WebhookEvent.logFailure msg]) := by
  refine ⟨rfl, rfl, ?_, ?_, fun msg => rfl⟩ <;> cases outcome <;> rfl

/-- C10: ingestion only ever appends to the index (the prior index is a
prefix of the new one), no other operation modifies it, and ingesting the
same file twice appends its chunk list twice — two copies, nothing
deduplicated, nothing deleted by any operation. -/
theorem index_append_only (st : SysState) (m : Model) (files : List UploadFile)
    (document_id question name : String) (pages : List String) (sf : Bool)
    (req : WebhookRequest) :
    (∃ newChunks, (ingest_pdfs st files).1.index = st.index ++ newChunks) ∧
    (extract_metadata st m document_id).1.index = st.index ∧
    (ask_question st m sf question).1.index = st.index ∧
    (stream_question st m sf question).1.index = st.index ∧
    (audit_contract st m document_id).1.index = st.index ∧
    (trigger_webhook_event st req).1.index = st.index ∧
    (get_metrics st).1.index = st.index ∧
    (ingest_pdfs st [⟨name, pages, none⟩, ⟨name, pages, none⟩]).1.index
        = st.index ++ create_documents (String.join pages).toList name
                   ++ create_documents (String.join pages).toList name := by
  refine ⟨ingestLoop_index_grows files st [], ?_, ?_, ?_, ?_, rfl, rfl, rfl⟩
  · simp only [extract_metadata]; split <;> rfl
  · cases sf <;> rfl
  · cases sf <;> rfl
  · rcases h : m.structuredAudit (auditPrompt (contextText (retrieve st.index document_id 15)))
      <;> simp [audit_contract, h]

end ContractIntel
